import Mathlib

/-!
Verification of the SSO authentication core of `src/sso.rs` (vaultwarden SSO fork).

Shallow embedding conventions:
* Rust `String` values are modelled as `List Char`.
* JSON values (`serde_json::Value`) are modelled by the inductive `Json`;
  numbers are restricted to integers, which is all the claims consume.
* A JWT string is modelled by its parsed content `JwtToken`: its claim set
  plus the identifier of the key that signed it (`none` when the signature
  is absent or matches no known key).  `jsonwebtoken::decode` is modelled by
  `jwtDecode`, which follows the checks of jsonwebtoken v9 `Validation`.
* The mini-moka `Cache` is modelled as an association list; TTL and capacity
  eviction are not modelled (no claim below depends on them).
* Network endpoints (token exchange, user-info) are oracle functions
  supplied as a `Provider` argument; `none` models a failed request.
* Database access (the `sso_nonce` table, organizations, memberships) is
  modelled by explicit state records threaded through the functions.
-/

namespace VwSso

/-- Model of `serde_json::Value` (numbers restricted to integers). -/
inductive Json where
  | null
  | bool (b : Bool)
  | num (n : Int)
  | str (s : List Char)
  | arr (l : List Json)
  | obj (l : List (List Char × Json))

/-- Lookup in an association list by key (first match wins), as in a JSON
object or the modelled cache. -/
def assocGet {α β : Type} [DecidableEq α] (l : List (α × β)) (k : α) : Option β :=
  (l.find? (fun p => decide (p.1 = k))).map (fun p => p.2)

/-- Rust `str::replace` for a two-character pattern, used for the JSON
pointer unescaping `~1 -> /` and `~0 -> ~` done by `serde_json`. -/
def replacePair (a b r : Char) : List Char → List Char
  | [] => []
  | [x] => [x]
  | x :: y :: rest =>
    if x = a ∧ y = b then r :: replacePair a b r rest
    else x :: replacePair a b r (y :: rest)

/-- JSON pointer token unescaping of `serde_json`: `~1` to `/` then `~0` to `~`. -/
def unescapeToken (t : List Char) : List Char :=
  replacePair '~' '0' '~' (replacePair '~' '1' '/' t)

/-- Model of `serde_json`'s private `parse_index`: no leading `+`, no leading
zero (except `"0"` itself), otherwise decimal digits. -/
def parse_index (s : List Char) : Option Nat :=
  match s with
  | [] => none
  | c :: rest =>
    if c = '+' then none
    else if c = '0' ∧ rest ≠ [] then none
    else if (c :: rest).all (fun d => d.isDigit) then
      some ((c :: rest).foldl (fun n d => n * 10 + (d.toNat - 48)) 0)
    else none

/-- Model of `serde_json::Value::pointer` (RFC 6901). -/
def jsonPointer (j : Json) (pointer : List Char) : Option Json :=
  if pointer = [] then some j
  else if pointer.head? ≠ some '/' then none
  else
    (((List.splitOn '/' pointer).drop 1).map unescapeToken).foldlM
      (fun target token =>
        match target with
        | Json.obj m => assocGet m token
        | Json.arr l => (parse_index token).bind (fun i => l.get? i)
        | _ => none)
      j

/-- Claim-set accessor: integer-valued registered claim. -/
def claimInt (c : Json) (k : List Char) : Option Int :=
  match c with
  | Json.obj m =>
    match assocGet m k with
    | some (Json.num n) => some n
    | _ => none
  | _ => none

/-- Claim-set accessor: string-valued registered claim. -/
def claimStr (c : Json) (k : List Char) : Option (List Char) :=
  match c with
  | Json.obj m =>
    match assocGet m k with
    | some (Json.str s) => some s
    | _ => none
  | _ => none

/-- Model of a decoded JWT string: the claim set together with the id of the
key whose signature it carries (`none`: unsigned or garbage signature). -/
structure JwtToken where
  claims : Json
  sig : Option Nat

/-- Model of `jsonwebtoken::Validation` (v9), restricted to the fields this
code touches.  `validate_signature` is the flag toggled by
`insecure_disable_signature_validation`. -/
structure Validation where
  leeway : Int
  validate_exp : Bool
  validate_nbf : Bool
  validate_aud : Bool
  aud : Option (List (List Char))
  iss : Option (List (List Char))
  validate_signature : Bool

/-- Model of `jsonwebtoken::Validation::default()` (HS256 defaults: leeway
60s, exp validated and required, nbf not validated, audience validated when
one is set, signature validated). -/
def Validation.standard : Validation :=
  { leeway := 60, validate_exp := true, validate_nbf := false, validate_aud := true,
    aud := none, iss := none, validate_signature := true }

/-- Failure modes of the modelled `jsonwebtoken::decode`. -/
inductive JwtError where
  | invalidSignature
  | missingRequiredClaim
  | expiredSignature
  | immatureSignature
  | invalidAudience
  | invalidIssuer
  | jsonError
deriving DecidableEq

/-- Key used by JSON claim lookups for `exp`. -/
def expKey : List Char := "exp".toList

/-- Key used by JSON claim lookups for `nbf`. -/
def nbfKey : List Char := "nbf".toList

/-- Key used by JSON claim lookups for `iss`. -/
def issKey : List Char := "iss".toList

/-- Key used by JSON claim lookups for `aud`. -/
def audKey : List Char := "aud".toList

/-- Key used by JSON claim lookups for `nonce`. -/
def nonceKey : List Char := "nonce".toList

/-- Key used by JSON claim lookups for `email`. -/
def emailKey : List Char := "email".toList

/-- Not-before check of jsonwebtoken: only when `validate_nbf` is set and the
claim is present. -/
def checkNbf (v : Validation) (now : Int) (c : Json) : Option JwtError :=
  match claimInt c nbfKey with
  | some n => if v.validate_nbf ∧ now + v.leeway < n then some JwtError.immatureSignature else none
  | none => none

/-- Issuer check of jsonwebtoken: only when an expected issuer set is
configured; a missing claim then fails as a missing required claim. -/
def checkIss (v : Validation) (c : Json) : Option JwtError :=
  match v.iss with
  | none => none
  | some expected =>
    match claimStr c issKey with
    | some i => if expected.contains i then none else some JwtError.invalidIssuer
    | none => some JwtError.missingRequiredClaim

/-- Audience check of jsonwebtoken: only when `validate_aud` is set and an
expected audience set is configured (audience claims are modelled in their
single-string form). -/
def checkAud (v : Validation) (c : Json) : Option JwtError :=
  if v.validate_aud then
    match v.aud with
    | none => none
    | some expected =>
      match claimStr c audKey with
      | some a => if expected.contains a then none else some JwtError.invalidAudience
      | none => some JwtError.missingRequiredClaim
  else none

/-- Registered-claim validation of jsonwebtoken v9: `exp` is a required
claim by default (never changed by this code), then expiry with leeway,
not-before, issuer and audience checks. -/
def validateClaims (v : Validation) (now : Int) (c : Json) : Option JwtError :=
  match claimInt c expKey with
  | none => some JwtError.missingRequiredClaim
  | some e =>
    (if v.validate_exp ∧ e < now - v.leeway then some JwtError.expiredSignature else none) <|>
    checkNbf v now c <|> checkIss v c <|> checkAud v c

/-- Model of `jsonwebtoken::decode::<T>`: verify the signature unless
disabled, deserialize the claim set into the target type, then validate the
registered claims. -/
def jwtDecode {α : Type} (deser : Json → Option α) (key : Nat) (v : Validation) (now : Int)
    (t : JwtToken) : Except JwtError α :=
  if v.validate_signature ∧ t.sig ≠ some key then Except.error JwtError.invalidSignature
  else
    match deser t.claims with
    | none => Except.error JwtError.jsonError
    | some a =>
      match validateClaims v now t.claims with
      | some e => Except.error e
      | none => Except.ok a

/-- Configuration options of `CONFIG` read by the SSO core.  `sso_rsa_key`
is `some k` when SSO is enabled and a readable RSA public-key file is
configured (`k` identifies that key); `none` selects the insecure fallback
of `prepare_decoding`. -/
structure Config where
  sso_client_id : List Char
  sso_authority : List Char
  sso_roles_enabled : Bool
  sso_roles_default_to_user : Bool
  sso_roles_token_path : List Char
  sso_organizations_invite : Bool
  sso_organizations_token_path : List Char
  sso_rsa_key : Option Nat

/-- Model of `insecure_validation()`: jsonwebtoken defaults, audience set to
the configured client id, signature validation disabled. -/
def insecure_validation (cfg : Config) : Validation :=
  { Validation.standard with aud := some [cfg.sso_client_id], validate_signature := false }

/-- Model of the `Decoding` struct: decoding key plus the validation used
for identity tokens and the one used for access/refresh tokens.  The
`debug_key`/`debug_validation` pair of the source is only used for logging
and is not modelled. -/
structure Decoding where
  key : Nat
  id_validation : Validation
  access_validation : Validation

/-- Model of `Decoding::new`: access-token validation is the given
validation with the audience check turned off. -/
def Decoding.new (key : Nat) (validation : Validation) : Decoding :=
  { key := key,
    id_validation := validation,
    access_validation := { validation with validate_aud := false } }

/-- Identifier of the key produced by `DecodingKey::from_secret(&[])`; no
real token carries a signature under it. -/
def emptySecretKey : Nat := 0

/-- Model of `prepare_decoding()`: with a configured RSA key, strict RS256
validation (leeway 30s, exp and nbf validated, audience = client id,
issuer = authority); without one, the insecure fallback. -/
def prepare_decoding (cfg : Config) : Decoding :=
  match cfg.sso_rsa_key with
  | some key =>
    Decoding.new key
      { leeway := 30, validate_exp := true, validate_nbf := true, validate_aud := true,
        aud := some [cfg.sso_client_id], iss := some [cfg.sso_authority],
        validate_signature := true }
  | none => Decoding.new emptySecretKey (insecure_validation cfg)

/-- Model of the `IdTokenPayload` struct deserialized from identity-token
claims. -/
structure IdTokenPayload where
  exp : Int
  email : Option (List Char)
  nonce : List Char
deriving DecidableEq

/-- Serde deserialization of `IdTokenPayload`: `exp` and `nonce` required,
`email` optional (absent or `null` becomes `none`), unknown fields ignored. -/
def deserializeIdToken (c : Json) : Option IdTokenPayload :=
  match c with
  | Json.obj m =>
    match assocGet m expKey, assocGet m nonceKey with
    | some (Json.num e), some (Json.str n) =>
      match assocGet m emailKey with
      | none => some { exp := e, email := none, nonce := n }
      | some Json.null => some { exp := e, email := none, nonce := n }
      | some (Json.str s) => some { exp := e, email := some s, nonce := n }
      | some _ => none
    | _, _ => none
  | _ => none

/-- Model of the `UserRole` enum; the derived Rust `Ord` ranks `Admin`
before `User` (declaration order). -/
inductive UserRole where
  | admin
  | user
deriving DecidableEq

/-- Derived `Ord` ordering of `UserRole` (declaration order). -/
def UserRole.le : UserRole → UserRole → Bool
  | UserRole.admin, _ => true
  | UserRole.user, UserRole.user => true
  | UserRole.user, UserRole.admin => false

/-- Insertion step of the modelled `Vec::sort`. -/
def insertSorted (r : UserRole) : List UserRole → List UserRole
  | [] => [r]
  | x :: xs => if UserRole.le r x then r :: x :: xs else x :: insertSorted r xs

/-- Model of `roles.sort()` on a role list (insertion sort; only the head of
the result is consumed). -/
def sortRoles : List UserRole → List UserRole
  | [] => []
  | x :: xs => insertSorted x (sortRoles xs)

/-- Serde deserialization of a single `UserRole` with
`rename_all = "lowercase"`: exactly the strings `admin` and `user`. -/
def parseRole (j : Json) : Option UserRole :=
  match j with
  | Json.str s =>
    if s = "admin".toList then some UserRole.admin
    else if s = "user".toList then some UserRole.user
    else none
  | _ => none

/-- Serde sequence deserialization: every element must parse, any
non-conforming element fails the whole list. -/
def parseAll {α : Type} (f : Json → Option α) : List Json → Option (List α)
  | [] => some []
  | x :: xs =>
    match f x, parseAll f xs with
    | some a, some rest => some (a :: rest)
    | _, _ => none

/-- Serde deserialization of `Vec<UserRole>`: a JSON array whose elements
all parse; any non-conforming element fails the whole list. -/
def parseRoleList (j : Json) : Option (List UserRole) :=
  match j with
  | Json.arr l => parseAll parseRole l
  | _ => none

/-- Model of `Decoding::roles`: resolve the configured JSON pointer in the
access-token claims, deserialize a role list, sort it and keep the first
element; every failure degrades to `none` (errors are only logged).  The
email argument of the source only feeds the log message. -/
def Decoding.roles (cfg : Config) (_email : List Char) (token : Json) : Option UserRole :=
  match jsonPointer token cfg.sso_roles_token_path with
  | some json_roles =>
    match parseRoleList json_roles with
    | some roles => (sortRoles roles).head?
    | none => none
  | none => none

/-- Serde deserialization of `Vec<String>`. -/
def parseStrList (j : Json) : Option (List (List Char)) :=
  match j with
  | Json.arr l =>
    parseAll (fun x =>
      match x with
      | Json.str s => some s
      | _ => none) l
  | _ => none

/-- Model of `Decoding::groups`: resolve the configured JSON pointer in the
access-token claims and deserialize a string list; every failure degrades to
the empty list (errors are only logged). -/
def Decoding.groups (cfg : Config) (_email : List Char) (token : Json) : List (List Char) :=
  match jsonPointer token cfg.sso_organizations_token_path with
  | some json_groups => (parseStrList json_groups).getD []
  | none => []

/-- Error outcomes of the SSO core; one constructor per `err!` site reached
by the modelled functions (messages in the source quoted in comments). -/
inductive SsoErr where
  /-- Message `Failed to login: ...` (decoded error envelope). -/
  | failedLogin
  /-- Message `Failed to decode SSO error`. -/
  | failedDecodeSsoError
  /-- Message `Token response did not contain an id_token`. -/
  | missingIdToken
  /-- Message `Could not decode id token`. -/
  | couldNotDecodeIdToken
  /-- Messages `No user_info endpoint` and `Request to user_info endpoint failed`. -/
  | userInfoFailed
  /-- Message `Neither id token nor userinfo contained an email`. -/
  | missingEmail
  /-- Message `Could not decode access token`. -/
  | couldNotDecodeAccessToken
  /-- Message `Invalid user role. Contact your administrator`. -/
  | invalidUserRole
  /-- Message `Missing refresh_token`. -/
  | missingRefreshToken
  /-- Message `Failed to contact token endpoint`. -/
  | tokenEndpointFailed
  /-- Message `Failed to retrieve user info from sso cache`. -/
  | cacheMiss
  /-- Message `Failed to retrive nonce from db` (source spelling). -/
  | nonceMissing
  /-- Message `Failed to delete nonce`. -/
  | nonceDeleteFailed
deriving DecidableEq

/-- Model of the `AccessTokenPayload` struct. -/
structure AccessTokenPayload where
  role : Option UserRole
  groups : List (List Char)
deriving DecidableEq

/-- Model of `Decoding::access_token`: the whole decode/extract block is
gated on `sso_roles_enabled() && sso_organizations_invite()`; inside it, a
failed JWT decode is fatal, a missing role is fatal only when
`sso_roles_default_to_user()` is off. -/
def Decoding.access_token (cfg : Config) (d : Decoding) (now : Int) (email : List Char)
    (access_token : JwtToken) : Except SsoErr AccessTokenPayload :=
  if cfg.sso_roles_enabled ∧ cfg.sso_organizations_invite then
    match jwtDecode some d.key d.access_validation now access_token with
    | Except.error _ => Except.error SsoErr.couldNotDecodeAccessToken
    | Except.ok payload =>
      let role := if cfg.sso_roles_enabled then Decoding.roles cfg email payload else none
      if cfg.sso_roles_enabled ∧ ¬ cfg.sso_roles_default_to_user ∧ role = none then
        Except.error SsoErr.invalidUserRole
      else
        let groups := if cfg.sso_organizations_invite then Decoding.groups cfg email payload else []
        Except.ok { role := role, groups := groups }
  else Except.ok { role := none, groups := [] }

/-- Model of `Decoding::id_token` on an optional identity token from the
token response. -/
def Decoding.id_token (d : Decoding) (now : Int) (oic_id_token : Option JwtToken) :
    Except SsoErr IdTokenPayload :=
  match oic_id_token with
  | none => Except.error SsoErr.missingIdToken
  | some t =>
    match jwtDecode deserializeIdToken d.key d.id_validation now t with
    | Except.ok payload => Except.ok payload
    | Except.error _ => Except.error SsoErr.couldNotDecodeIdToken

/-- Modelled from the spec: the `auth::SSOCodeErrorClaims` struct (module
`auth` is not under `src/`), the structured `{error, error_description}`
pair of the Error Envelope Channel. -/
structure SSOCodeErrorClaims where
  error : List Char
  error_description : Option (List Char)
deriving DecidableEq

/-- Unary encoding of a natural number over the characters `1` and `0`. -/
def natToUnary : Nat → List Char
  | 0 => ['0']
  | Nat.succ n => '1' :: natToUnary n

/-- Encoding of one string segment of the modelled error token: each
character in unary, the segment closed by `2`. -/
def encodeSeg (s : List Char) : List Char :=
  (s.map (fun c => natToUnary c.toNat)).flatten ++ ['2']

/-- Modelled from the spec: `auth::generate_sso_error_claims` (module `auth`
is not under `src/`) serializes the error pair into a token string; the
model uses an injective serialization over the alphabet `0`, `1`, `2` (the
first segment is the error, an optional second segment the description). -/
def generate_sso_error_claims (error : List Char) (error_description : Option (List Char)) :
    List Char :=
  encodeSeg error ++
    (match error_description with
     | none => []
     | some d => encodeSeg d)

/-- Single-pass segment parser of the modelled error token: `pending` counts
the `1` run of the character being read, `cur` the characters of the open
segment (reversed), `segs` the closed segments (reversed). -/
def segsAux : List Char → Nat → List Nat → List (List Nat) → Option (List (List Nat))
  | [], 0, [], segs => some segs.reverse
  | [], _, _, _ => none
  | c :: rest, pending, cur, segs =>
    if c = '1' then segsAux rest (pending + 1) cur segs
    else if c = '0' then segsAux rest 0 (pending :: cur) segs
    else if c = '2' then
      (if pending = 0 then segsAux rest 0 [] (cur.reverse :: segs) else none)
    else none

/-- Modelled from the spec: `auth::decode_sso_error` (module `auth` is not
under `src/`) decodes a token back into the error pair, failing on a
malformed token. -/
def decode_sso_error (token : List Char) : Except (List Char) SSOCodeErrorClaims :=
  match segsAux token 0 [] [] with
  | some [e] => Except.ok { error := e.map Char.ofNat, error_description := none }
  | some [e, d] =>
    Except.ok { error := e.map Char.ofNat, error_description := some (d.map Char.ofNat) }
  | _ => Except.error "Invalid SSO error token".toList

/-- Model of `wrap_sso_errors`: the serialized claims behind the fixed
prefix `error_`. -/
def wrap_sso_errors (error : List Char) (error_description : Option (List Char)) : List Char :=
  "error_".toList ++ generate_sso_error_claims error error_description

/-- Match of the `^error_(.*)$` regex: the code starts with `error_` and the
capture holds the remainder, which may not span a newline (`.` does not
match `\n`). -/
def ssoErrorsRegexCapture (code : List Char) : Option (List Char) :=
  if "error_".toList.isPrefixOf code ∧ ¬ (code.drop 6).contains '\n' then some (code.drop 6)
  else none

/-- Model of `unwrap_sso_erors` (source spelling): `none` when the regex
does not match, otherwise the decode result of the capture. -/
def unwrap_sso_erors (code : List Char) :
    Option (Except (List Char) SSOCodeErrorClaims) :=
  (ssoErrorsRegexCapture code).map decode_sso_error

/-- Model of the `AuthenticatedUser` struct cached under an authorization
code (token strings are modelled by their parsed `JwtToken` content where
the code later decodes them). -/
structure AuthenticatedUser where
  nonce : List Char
  refresh_token : List Char
  access_token : JwtToken
  email : List Char
  user_name : Option (List Char)
  role : Option UserRole
  groups : List (List Char)

/-- Model of the `UserInformation` struct returned by `exchange_code`. -/
structure UserInformation where
  email : List Char
  user_name : Option (List Char)
deriving DecidableEq

/-- Model of the `CoreUserInfoClaims` fields this code reads. -/
structure UserInfoClaims where
  email : Option (List Char)
  preferred_username : Option (List Char)

/-- Model of the OIDC token response fields this code reads. -/
structure TokenResponse where
  id_token : Option JwtToken
  access_token : JwtToken
  refresh_token : Option (List Char)

/-- Oracles for the two provider endpoints contacted by `exchange_code`;
`none` models a failed network request. -/
structure Provider where
  exchange : List Char → Option TokenResponse
  user_info : JwtToken → Option UserInfoClaims

/-- Network requests issued during a run of `exchange_code`. -/
inductive NetEvent where
  | tokenEndpoint
  | userInfoEndpoint
deriving DecidableEq

/-- Model of the `AC_CACHE` contents: an association list from
authorization code to cached identity (TTL/capacity eviction of mini-moka
not modelled). -/
abbrev Cache := List (List Char × AuthenticatedUser)

/-- Model of `AC_CACHE.get`. -/
def cacheGet (cache : Cache) (code : List Char) : Option AuthenticatedUser :=
  assocGet cache code

/-- Model of `AC_CACHE.invalidate`. -/
def cacheInvalidate (cache : Cache) (code : List Char) : Cache :=
  cache.filter (fun p => decide (p.1 ≠ code))

/-- Model of `AC_CACHE.insert` (replaces any entry under the same key). -/
def cacheInsert (cache : Cache) (code : List Char) (au : AuthenticatedUser) : Cache :=
  (code, au) :: cacheInvalidate cache code

/-- Email resolution of `exchange_code`: the identity-token email claim
wins, otherwise the user-info email. -/
def resolveEmail (idEmail uiEmail : Option (List Char)) : Option (List Char) :=
  match idEmail with
  | some email => some email
  | none => uiEmail

/-- Model of `exchange_code`.  The function takes no database connection in
the source; its only state is the identity cache.  It returns the result,
the cache afterwards, and the provider requests issued. -/
def exchange_code (cfg : Config) (provider : Provider) (now : Int) (code : List Char)
    (cache : Cache) : Except SsoErr UserInformation × Cache × List NetEvent :=
  match unwrap_sso_erors code with
  | some (Except.ok _) => (Except.error SsoErr.failedLogin, cache, [])
  | some (Except.error _) => (Except.error SsoErr.failedDecodeSsoError, cache, [])
  | none =>
    match cacheGet cache code with
    | some authenticated_user =>
      (Except.ok { email := authenticated_user.email, user_name := authenticated_user.user_name },
        cache, [])
    | none =>
      match provider.exchange code with
      | none => (Except.error SsoErr.tokenEndpointFailed, cache, [NetEvent.tokenEndpoint])
      | some token_response =>
        let d := prepare_decoding cfg
        match Decoding.id_token d now token_response.id_token with
        | Except.error e => (Except.error e, cache, [NetEvent.tokenEndpoint])
        | Except.ok id_token =>
          match provider.user_info token_response.access_token with
          | none =>
            (Except.error SsoErr.userInfoFailed, cache,
              [NetEvent.tokenEndpoint, NetEvent.userInfoEndpoint])
          | some user_info =>
            let user_name := user_info.preferred_username
            match resolveEmail id_token.email user_info.email with
            | none =>
              (Except.error SsoErr.missingEmail, cache,
                [NetEvent.tokenEndpoint, NetEvent.userInfoEndpoint])
            | some email =>
              match Decoding.access_token cfg d now email token_response.access_token with
              | Except.error e =>
                (Except.error e, cache, [NetEvent.tokenEndpoint, NetEvent.userInfoEndpoint])
              | Except.ok access_token =>
                match token_response.refresh_token with
                | none =>
                  (Except.error SsoErr.missingRefreshToken, cache,
                    [NetEvent.tokenEndpoint, NetEvent.userInfoEndpoint])
                | some refresh_token =>
                  let authenticated_user : AuthenticatedUser :=
                    { nonce := id_token.nonce, refresh_token := refresh_token,
                      access_token := token_response.access_token, email := email,
                      user_name := user_name, role := access_token.role,
                      groups := access_token.groups }
                  (Except.ok { email := email, user_name := user_name },
                    cacheInsert cache code authenticated_user,
                    [NetEvent.tokenEndpoint, NetEvent.userInfoEndpoint])

/-- Model of the database state seen through `DbConn` by `redeem`: the
persisted nonce records (keyed by nonce value) and an oracle for the
success of a row deletion. -/
structure DbState where
  nonces : List (List Char)
  delete_ok : List Char → Bool

/-- Model of `SsoNonce::find`. -/
def nonceFind (db : DbState) (n : List Char) : Bool :=
  db.nonces.contains n

/-- Model of `SsoNonce::delete`: on success the record is gone; on failure
the state is unchanged. -/
def nonceDelete (db : DbState) (n : List Char) : Option DbState :=
  if db.delete_ok n then some { db with nonces := db.nonces.filter (fun m => decide (m ≠ n)) }
  else none

/-- Model of `redeem`: get then invalidate the cache entry, then find and
delete the nonce record; returns the result, the cache and the database
afterwards. -/
def redeem (code : List Char) (cache : Cache) (db : DbState) :
    Except SsoErr AuthenticatedUser × Cache × DbState :=
  match cacheGet cache code with
  | some au =>
    let cache1 := cacheInvalidate cache code
    if nonceFind db au.nonce then
      match nonceDelete db au.nonce with
      | none => (Except.error SsoErr.nonceDeleteFailed, cache1, db)
      | some db1 => (Except.ok au, cache1, db1)
    else (Except.error SsoErr.nonceMissing, cache1, db)
  | none => (Except.error SsoErr.cacheMiss, cache, db)

/-- Program counter of one thread running the cache part of `redeem`
(`AC_CACHE.get(code)` then `AC_CACHE.invalidate(code)`), for the
interleaving model: after the get, a hit moves to `invalidating`, a miss to
`failed`; the invalidate then completes with the identity in hand. -/
inductive TakePc where
  | start
  | invalidating (au : AuthenticatedUser)
  | failed
  | took (au : AuthenticatedUser)

/-- One atomic step of a thread running get-then-invalidate on the shared
cache (each mini-moka operation is individually atomic). -/
def takeStep (code : List Char) : Cache × TakePc → Cache × TakePc
  | (cache, TakePc.start) =>
    match cacheGet cache code with
    | some au => (cache, TakePc.invalidating au)
    | none => (cache, TakePc.failed)
  | (cache, TakePc.invalidating au) => (cacheInvalidate cache code, TakePc.took au)
  | s => s

/-- Shared state of two concurrent redeem calls on the same code. -/
structure TwoTakes where
  cache : Cache
  pc1 : TakePc
  pc2 : TakePc

/-- Scheduler step: run one atomic step of the chosen thread. -/
def twoTakesStep (code : List Char) (first : Bool) (s : TwoTakes) : TwoTakes :=
  if first then
    let r := takeStep code (s.cache, s.pc1)
    { cache := r.1, pc1 := r.2, pc2 := s.pc2 }
  else
    let r := takeStep code (s.cache, s.pc2)
    { cache := r.1, pc1 := s.pc1, pc2 := r.2 }

/-- Run a schedule (`true` = thread 1 steps, `false` = thread 2 steps). -/
def runSchedule (code : List Char) (sched : List Bool) (s : TwoTakes) : TwoTakes :=
  sched.foldl (fun st b => twoTakesStep code b st) s

/-- Observer outcome: the thread finished its take holding the identity. -/
def tookIdentity : TakePc → Bool
  | TakePc.took _ => true
  | _ => false

/-- Modelled from the spec: the organization record fields read by
`sync_groups` (the `db::models::Organization` source is not under `src/`). -/
structure Organization where
  uuid : List Char
  name : List Char
  billing_email : List Char

/-- Modelled from the spec: a membership row of `UserOrganization` in any
state (the model keeps the state opaque, since `sync_groups` only tests
presence). -/
structure UserOrganization where
  user_uuid : List Char
  org_uuid : List Char
  status : Int

/-- Modelled from the spec: the organization tables visible through
`DbConn`. -/
structure OrgDb where
  organizations : List Organization
  memberships : List UserOrganization

/-- Modelled from the spec: `Organization::find_by_name` looks a local
organization up by exact name. -/
def find_by_name (db : OrgDb) (name : List Char) : Option Organization :=
  db.organizations.find? (fun o => decide (o.name = name))

/-- Modelled from the spec: `UserOrganization::find_any_state_by_user`
returns the user's membership rows in every state. -/
def find_any_state_by_user (db : OrgDb) (user_uuid : List Char) : List UserOrganization :=
  db.memberships.filter (fun m => decide (m.user_uuid = user_uuid))

/-- Modelled from the spec: the `UserOrgType` enum of membership
privileges. -/
inductive UserOrgType where
  | owner
  | admin
  | user
  | manager
deriving DecidableEq

/-- Modelled from the spec: one call to `organization_logic::invite` (not
under `src/`), recorded with the arguments `sync_groups` passes: membership
type, default group list, auto-acceptance flag, default collection grants
and the notified address. -/
structure Invitation where
  user_uuid : List Char
  org_uuid : List Char
  user_org_type : UserOrgType
  groups : List (List Char)
  auto_accept : Bool
  collections : List (List Char)
  notify_email : List Char
deriving DecidableEq

/-- Model of `sync_groups`, returning the invitations issued: gated on
`sso_organizations_invite()`; the user's memberships are collected once
up-front; each group name matching an organization the user is not in
yields one `invite` call with member type `User`, empty groups, acceptance
`true`, empty collections and the organization's billing address. -/
def sync_groups (cfg : Config) (db : OrgDb) (user_uuid : List Char)
    (groups : List (List Char)) : List Invitation :=
  if cfg.sso_organizations_invite then
    let db_user_orgs := find_any_state_by_user db user_uuid
    let user_orgs := db_user_orgs.map (fun uo => uo.org_uuid)
    let org_groups : List (List Char) := []
    let org_collections : List (List Char) := []
    groups.filterMap (fun group =>
      match find_by_name db group with
      | some org =>
        if user_orgs.contains org.uuid then none
        else
          some { user_uuid := user_uuid, org_uuid := org.uuid, user_org_type := UserOrgType.user,
                 groups := org_groups, auto_accept := true, collections := org_collections,
                 notify_email := org.billing_email }
      | none => none)
  else []

/-- Specification-side description of one group of §4.5 step 7: skip names
matching no organization, skip organizations the user is already a member
of in any state, otherwise one invitation with default member privileges,
no collection grants, auto-acceptance, and the billing contact notified. -/
def specGroupInvite (db : OrgDb) (user_uuid : List Char) (group : List Char) :
    Option Invitation :=
  match find_by_name db group with
  | none => none
  | some org =>
    if db.memberships.any (fun m => decide (m.user_uuid = user_uuid ∧ m.org_uuid = org.uuid)) then
      none
    else
      some { user_uuid := user_uuid, org_uuid := org.uuid, user_org_type := UserOrgType.user,
             groups := [], auto_accept := true, collections := [],
             notify_email := org.billing_email }

/-! ### Helper lemmas -/

/-- Invalidating a key removes it: a lookup after the filter misses. -/
theorem assocGet_filter_self {β : Type} (l : List (List Char × β)) (k : List Char) :
    assocGet (l.filter (fun p => decide (p.1 ≠ k))) k = none := by
  induction l with
  | nil => rfl
  | cons hd tl ih =>
    by_cases h : hd.1 = k
    · simp only [List.filter, h]
      simpa using ih
    · simp only [List.filter, decide_not, h, decide_eq_false, Bool.not_false]
      simpa [assocGet, List.find?, h] using ih

/-- Lookup under a different key is unchanged by invalidation. -/
theorem cacheGet_cacheInvalidate (cache : Cache) (code : List Char) :
    cacheGet (cacheInvalidate cache code) code = none :=
  assocGet_filter_self cache code

/-- Membership test after removing every copy of an element fails. -/
theorem contains_filter_self (l : List (List Char)) (n : List Char) :
    (l.filter (fun m => decide (m ≠ n))).contains n = false := by
  induction l with
  | nil => rfl
  | cons hd tl ih =>
    by_cases h : hd = n
    · simp only [List.filter, h]
      simpa using ih
    · have hne : ¬ n = hd := fun e => h e.symm
      simp only [List.filter, decide_not, h, decide_eq_false, Bool.not_false]
      simpa [List.contains_cons, hne] using ih

/-! ### Concrete sample values used by witnesses and counterexamples -/

/-- Sample access token: a bare claim set with only an `exp` claim. -/
def sampleAccessTok : JwtToken :=
  { claims := Json.obj [(expKey, Json.num 1000)], sig := none }

/-- Sample cached identity carrying nonce `n1`. -/
def sampleAu : AuthenticatedUser :=
  { nonce := "n1".toList, refresh_token := "rt".toList, access_token := sampleAccessTok,
    email := "user@example.com".toList, user_name := none, role := none, groups := [] }

/-- Sample authorization code. -/
def sampleCode : List Char := "code1".toList

/-- Sample nonce store holding exactly the record `n1`, deletions succeed. -/
def sampleDb : DbState := { nonces := ["n1".toList], delete_ok := fun _ => true }

/-- Empty nonce store, deletions succeed. -/
def emptyDb : DbState := { nonces := [], delete_ok := fun _ => true }

/-- Sample cache holding the sample identity under the sample code. -/
def sampleCache : Cache := [(sampleCode, sampleAu)]

/-- Sample configuration: SSO without roles/organizations and without a
configured RSA key (insecure policy). -/
def sampleCfg : Config :=
  { sso_client_id := "cid".toList, sso_authority := "https://idp".toList,
    sso_roles_enabled := false, sso_roles_default_to_user := false,
    sso_roles_token_path := "/resource_access/roles".toList,
    sso_organizations_invite := false, sso_organizations_token_path := "/groups".toList,
    sso_rsa_key := none }

/-- Sample identity token: nonce `n1`, audience `cid`, email claim present. -/
def sampleIdTok : JwtToken :=
  { claims := Json.obj [(expKey, Json.num 1000), (nonceKey, Json.str "n1".toList),
      (audKey, Json.str "cid".toList), (emailKey, Json.str "user@example.com".toList)],
    sig := none }

/-- Sample token response delivered by the provider. -/
def sampleTr : TokenResponse :=
  { id_token := some sampleIdTok, access_token := sampleAccessTok,
    refresh_token := some "rt".toList }

/-- Sample decoded identity claims of `sampleIdTok`. -/
def sampleIdPayload : IdTokenPayload :=
  { exp := 1000, email := some "user@example.com".toList, nonce := "n1".toList }

/-- Sample provider oracle: code exchange always returns `sampleTr`; the
user-info endpoint returns an empty profile. -/
def sampleProvider : Provider :=
  { exchange := fun _ => some sampleTr,
    user_info := fun _ => some { email := none, preferred_username := none } }

/-- Inserting a key makes the very next lookup return the new identity. -/
theorem cacheGet_cacheInsert (cache : Cache) (code : List Char) (au : AuthenticatedUser) :
    cacheGet (cacheInsert cache code au) code = some au := by
  simp [cacheGet, cacheInsert, assocGet, List.find?]

/-! ### Claim theorems -/

/-- Claim C1: after one successful `redeem` call with an authorization code,
a second `redeem` call with the same code fails with the cache-miss error
(`Failed to retrieve user info from sso cache`), and the consumed nonce
record is gone from the store: redemption succeeds at most once per code
and per nonce. -/
theorem redeem_succeeds_at_most_once (code : List Char) (cache : Cache) (db : DbState)
    (au : AuthenticatedUser) (cache1 : Cache) (db1 : DbState)
    (h : redeem code cache db = (Except.ok au, cache1, db1)) :
    redeem code cache1 db1 = (Except.error SsoErr.cacheMiss, cache1, db1)
      ∧ nonceFind db1 au.nonce = false := by
  cases hc : cacheGet cache code with
  | none => simp [redeem, hc] at h
  | some au0 =>
    simp only [redeem, hc] at h
    by_cases hn : nonceFind db au0.nonce
    · rw [if_pos hn] at h
      cases hd : nonceDelete db au0.nonce with
      | none => rw [hd] at h; exact absurd h (by simp)
      | some db2 =>
        rw [hd] at h
        simp only [Prod.mk.injEq, Except.ok.injEq] at h
        obtain ⟨rfl, rfl, rfl⟩ := h
        constructor
        · unfold redeem
          rw [cacheGet_cacheInvalidate]
        · unfold nonceDelete at hd
          by_cases hdo : db.delete_ok au0.nonce
          · rw [if_pos hdo] at hd
            simp only [Option.some.injEq] at hd
            subst hd
            exact contains_filter_self db.nonces au0.nonce
          · rw [if_neg hdo] at hd
            exact absurd hd (by simp)
    · rw [if_neg hn] at h
      exact absurd h (by simp)

/-- Witness for C1 at the sample inputs. -/
theorem redeem_succeeds_at_most_once_witness :
    redeem sampleCode [] emptyDb = (Except.error SsoErr.cacheMiss, [], emptyDb)
      ∧ nonceFind emptyDb sampleAu.nonce = false :=
  redeem_succeeds_at_most_once sampleCode sampleCache sampleDb sampleAu [] emptyDb rfl

/-- Claim C10: when `redeem` finds a cached identity but the matching nonce
record is absent (or its deletion fails), it returns the corresponding
nonce error — distinct from the cache-miss error — while the cache entry
has already been invalidated, so a subsequent `redeem` with the same code
fails with the cache-miss error: the entry is consumed even on the error
path. -/
theorem redeem_consumes_cache_on_error (code : List Char) (cache : Cache) (db : DbState)
    (au : AuthenticatedUser)
    (h : cacheGet cache code = some au)
    (h2 : nonceFind db au.nonce = false ∨ nonceDelete db au.nonce = none) :
    redeem code cache db =
        (Except.error
            (if nonceFind db au.nonce then SsoErr.nonceDeleteFailed else SsoErr.nonceMissing),
          cacheInvalidate cache code, db)
      ∧ (if nonceFind db au.nonce then SsoErr.nonceDeleteFailed else SsoErr.nonceMissing)
          ≠ SsoErr.cacheMiss
      ∧ redeem code (cacheInvalidate cache code) db =
          (Except.error SsoErr.cacheMiss, cacheInvalidate cache code, db) := by
  refine ⟨?_, ?_, ?_⟩
  · rcases h2 with hn | hd
    · simp [redeem, h, hn]
    · by_cases hn : nonceFind db au.nonce <;> simp [redeem, h, hn, hd]
  · by_cases hn : nonceFind db au.nonce <;> simp [hn]
  · simp [redeem, cacheGet_cacheInvalidate]

/-- Witness for C10: sample identity cached, empty nonce store. -/
theorem redeem_consumes_cache_on_error_witness :
    redeem sampleCode sampleCache emptyDb =
        (Except.error
            (if nonceFind emptyDb sampleAu.nonce then SsoErr.nonceDeleteFailed
             else SsoErr.nonceMissing),
          cacheInvalidate sampleCache sampleCode, emptyDb)
      ∧ (if nonceFind emptyDb sampleAu.nonce then SsoErr.nonceDeleteFailed
         else SsoErr.nonceMissing) ≠ SsoErr.cacheMiss
      ∧ redeem sampleCode (cacheInvalidate sampleCache sampleCode) emptyDb =
          (Except.error SsoErr.cacheMiss, cacheInvalidate sampleCache sampleCode, emptyDb) :=
  redeem_consumes_cache_on_error sampleCode sampleCache emptyDb sampleAu rfl (Or.inl rfl)

/-- Claim C2 counterexample: the cache take of `redeem` is
`AC_CACHE.get(code)` followed by `AC_CACHE.invalidate(code)`, two separate
atomic cache operations, not one atomic get-and-remove: under the
interleaving get₁, get₂, invalidate₁, invalidate₂ both concurrent calls on
the same code receive the cached identity, contradicting "two concurrent
takes never both succeed". -/
theorem concurrent_take_both_succeed :
    tookIdentity (runSchedule sampleCode [true, false, true, false]
        { cache := sampleCache, pc1 := TakePc.start, pc2 := TakePc.start }).pc1 = true
      ∧ tookIdentity (runSchedule sampleCode [true, false, true, false]
          { cache := sampleCache, pc1 := TakePc.start, pc2 := TakePc.start }).pc2 = true :=
  ⟨rfl, rfl⟩

/-- Claim C2 (amended): the get-then-invalidate pair is atomic only per
operation; when the two redeem calls do not interleave (either serialized
order), at most one observer receives the identity — the overlapping
schedule of the counterexample is what the implementation fails to
exclude. -/
theorem serialized_take_at_most_one (code : List Char) (cache : Cache) :
    (tookIdentity (runSchedule code [true, true, false, false]
          { cache := cache, pc1 := TakePc.start, pc2 := TakePc.start }).pc1
        && tookIdentity (runSchedule code [true, true, false, false]
          { cache := cache, pc1 := TakePc.start, pc2 := TakePc.start }).pc2) = false
      ∧ (tookIdentity (runSchedule code [false, false, true, true]
            { cache := cache, pc1 := TakePc.start, pc2 := TakePc.start }).pc1
          && tookIdentity (runSchedule code [false, false, true, true]
            { cache := cache, pc1 := TakePc.start, pc2 := TakePc.start }).pc2) = false := by
  constructor <;>
    cases hc : cacheGet cache code <;>
      simp [runSchedule, twoTakesStep, takeStep, hc, cacheGet_cacheInvalidate, tookIdentity]

/-- Witness for the amended C2 at the sample inputs. -/
theorem serialized_take_at_most_one_witness :
    (tookIdentity (runSchedule sampleCode [true, true, false, false]
          { cache := sampleCache, pc1 := TakePc.start, pc2 := TakePc.start }).pc1
        && tookIdentity (runSchedule sampleCode [true, true, false, false]
          { cache := sampleCache, pc1 := TakePc.start, pc2 := TakePc.start }).pc2) = false :=
  (serialized_take_at_most_one sampleCode sampleCache).1

/-- Claim C6: exchanging a code whose identity is already cached (and which
is not an error envelope) returns the cached email and user name, issues no
provider network request, and leaves the cache unchanged: the exchange step
is idempotent on a cached code. -/
theorem exchange_code_idempotent_on_cached (cfg : Config) (provider : Provider) (now : Int)
    (code : List Char) (cache : Cache) (au : AuthenticatedUser)
    (hw : unwrap_sso_erors code = none)
    (hc : cacheGet cache code = some au) :
    exchange_code cfg provider now code cache =
      (Except.ok { email := au.email, user_name := au.user_name }, cache, []) := by
  simp [exchange_code, hw, hc]

/-- Witness for C6 at the sample inputs. -/
theorem exchange_code_idempotent_on_cached_witness :
    exchange_code sampleCfg sampleProvider 0 sampleCode sampleCache =
      (Except.ok { email := sampleAu.email, user_name := sampleAu.user_name },
        sampleCache, []) :=
  exchange_code_idempotent_on_cached sampleCfg sampleProvider 0 sampleCode sampleCache
    sampleAu rfl rfl

/-- Claim C3 counterexample: a complete `exchange_code` run on a code not in
the cache succeeds although the nonce carried by the validated identity
claims (`n1`) has no record in the (empty) nonce store — `exchange_code`
takes no database connection and performs no nonce-existence check; the
check only happens at `redeem`, which then fails with the nonce error. -/
theorem exchange_code_no_nonce_check :
    (exchange_code sampleCfg sampleProvider 0 sampleCode []).1 =
        Except.ok { email := sampleAu.email, user_name := none }
      ∧ cacheGet (exchange_code sampleCfg sampleProvider 0 sampleCode []).2.1 sampleCode =
          some sampleAu
      ∧ nonceFind emptyDb sampleAu.nonce = false
      ∧ (redeem sampleCode (exchange_code sampleCfg sampleProvider 0 sampleCode []).2.1
            emptyDb).1 = Except.error SsoErr.nonceMissing :=
  ⟨rfl, rfl, rfl, rfl⟩

/-- Claim C3 (amended): during exchange of a code not in the cache the
nonce carried by the validated identity claims is not looked up anywhere —
`exchange_code` accesses no nonce store and succeeds whenever the provider
interaction and token validation succeed, recording the nonce inside the
cached identity; the existence check (with deletion) happens only at
`redeem`, which fails with the nonce error when no record exists. -/
theorem exchange_nonce_checked_only_at_redeem
    (cfg : Config) (provider : Provider) (now : Int) (code : List Char) (cache : Cache)
    (tr : TokenResponse) (idp : IdTokenPayload) (ui : UserInfoClaims) (email : List Char)
    (atp : AccessTokenPayload) (rt : List Char)
    (hw : unwrap_sso_erors code = none)
    (hc : cacheGet cache code = none)
    (hx : provider.exchange code = some tr)
    (hi : Decoding.id_token (prepare_decoding cfg) now tr.id_token = Except.ok idp)
    (hu : provider.user_info tr.access_token = some ui)
    (he : resolveEmail idp.email ui.email = some email)
    (ha : Decoding.access_token cfg (prepare_decoding cfg) now email tr.access_token =
      Except.ok atp)
    (hr : tr.refresh_token = some rt) :
    exchange_code cfg provider now code cache =
        (Except.ok { email := email, user_name := ui.preferred_username },
          cacheInsert cache code
            { nonce := idp.nonce, refresh_token := rt, access_token := tr.access_token,
              email := email, user_name := ui.preferred_username, role := atp.role,
              groups := atp.groups },
          [NetEvent.tokenEndpoint, NetEvent.userInfoEndpoint])
      ∧ (∀ (cache2 : Cache) (au2 : AuthenticatedUser) (db : DbState),
          cacheGet cache2 code = some au2 → nonceFind db au2.nonce = false →
            redeem code cache2 db =
              (Except.error SsoErr.nonceMissing, cacheInvalidate cache2 code, db)) := by
  constructor
  · simp [exchange_code, hw, hc, hx, hi, hu, he, ha, hr]
  · intro cache2 au2 db h1 h2
    simp [redeem, h1, h2]

/-- Witness for the amended C3 at the sample inputs. -/
theorem exchange_nonce_checked_only_at_redeem_witness :
    exchange_code sampleCfg sampleProvider 0 sampleCode [] =
      (Except.ok { email := "user@example.com".toList, user_name := none },
        cacheInsert [] sampleCode
          { nonce := sampleIdPayload.nonce, refresh_token := "rt".toList,
            access_token := sampleTr.access_token, email := "user@example.com".toList,
            user_name := none, role := none, groups := [] },
        [NetEvent.tokenEndpoint, NetEvent.userInfoEndpoint]) :=
  (exchange_nonce_checked_only_at_redeem sampleCfg sampleProvider 0 sampleCode []
    sampleTr sampleIdPayload { email := none, preferred_username := none }
    "user@example.com".toList { role := none, groups := [] } "rt".toList
    rfl rfl rfl rfl rfl rfl rfl rfl).1

/-- Configuration with role enforcement on, default-to-user off, and
organization invitations off. -/
def cfgRolesNoOrg : Config :=
  { sampleCfg with sso_roles_enabled := true }

/-- Configuration with role enforcement and organization invitations on,
default-to-user off. -/
def cfgRolesOrg : Config :=
  { sampleCfg with sso_roles_enabled := true, sso_organizations_invite := true }

/-- Claim C4 counterexample: role enforcement is configured
(`sso_roles_enabled`), the default-to-user fallback is not
(`sso_roles_default_to_user = false`), the access token yields no valid
role (the role path resolves to nothing), yet `Decoding::access_token`
returns `Ok` instead of failing hard — because organization invitations are
disabled, the entire role block is skipped. -/
theorem role_failure_not_hard_without_org_invite :
    cfgRolesNoOrg.sso_roles_enabled = true
      ∧ cfgRolesNoOrg.sso_roles_default_to_user = false
      ∧ Decoding.roles cfgRolesNoOrg "user@example.com".toList sampleAccessTok.claims = none
      ∧ Decoding.access_token cfgRolesNoOrg (prepare_decoding cfgRolesNoOrg) 0
          "user@example.com".toList sampleAccessTok = Except.ok { role := none, groups := [] } :=
  ⟨rfl, rfl, rfl, rfl⟩

/-- Claim C4 (amended): for a decodable access token from which no valid
role can be extracted, the exchange step fails hard exactly when role
enforcement AND organization invitations are both configured and the
default-to-user fallback is not; whenever the two enablement flags are not
both set, the whole block is skipped and the result is `Ok` with no role. -/
theorem role_hard_failure_requires_roles_and_org (cfg : Config) (d : Decoding) (now : Int)
    (email : List Char) (tok : JwtToken) (claims : Json)
    (hdec : jwtDecode some d.key d.access_validation now tok = Except.ok claims)
    (hrole : Decoding.roles cfg email claims = none) :
    (Decoding.access_token cfg d now email tok = Except.error SsoErr.invalidUserRole ↔
        (cfg.sso_roles_enabled = true ∧ cfg.sso_organizations_invite = true
          ∧ cfg.sso_roles_default_to_user = false))
      ∧ (¬ (cfg.sso_roles_enabled = true ∧ cfg.sso_organizations_invite = true) →
          Decoding.access_token cfg d now email tok = Except.ok { role := none, groups := [] }) := by
  constructor
  · by_cases h1 : cfg.sso_roles_enabled = true <;>
      by_cases h2 : cfg.sso_organizations_invite = true <;>
        by_cases h3 : cfg.sso_roles_default_to_user = true <;>
          simp [Decoding.access_token, h1, h2, h3, hdec, hrole]
  · intro hna
    by_cases h1 : cfg.sso_roles_enabled = true
    · by_cases h2 : cfg.sso_organizations_invite = true
      · exact absurd ⟨h1, h2⟩ hna
      · simp [Decoding.access_token, h1, h2]
    · simp [Decoding.access_token, h1]

/-- Witness for the amended C4: with both flags on and no fallback, a
role-less decodable token is a hard failure. -/
theorem role_hard_failure_requires_roles_and_org_witness :
    Decoding.access_token cfgRolesOrg (prepare_decoding cfgRolesOrg) 0
        "user@example.com".toList sampleAccessTok = Except.error SsoErr.invalidUserRole :=
  (role_hard_failure_requires_roles_and_org cfgRolesOrg (prepare_decoding cfgRolesOrg) 0
    "user@example.com".toList sampleAccessTok sampleAccessTok.claims rfl rfl).1.mpr
    ⟨rfl, rfl, rfl⟩

/-- Chaining first-some: a some on the right keeps the chain some. -/
theorem option_orElse_some {α : Type} (a b : Option α) (h : ∃ y, b = some y) :
    ∃ y, (a <|> b) = some y := by
  cases a with
  | none => exact h
  | some x => exact ⟨x, rfl⟩

/-- Audience mismatch makes registered-claim validation fail under any
validation whose `validate_aud` is set with a configured audience list. -/
theorem validateClaims_aud_mismatch (cfg : Config) (now : Int) (c : Json)
    (haud : claimStr c audKey ≠ some cfg.sso_client_id) :
    ∃ e, validateClaims (insecure_validation cfg) now c = some e := by
  have hca : ∃ e, checkAud (insecure_validation cfg) c = some e := by
    cases hc : claimStr c audKey with
    | none => exact ⟨JwtError.missingRequiredClaim, by simp [checkAud, insecure_validation, Validation.standard, hc]⟩
    | some a =>
      have hne : ¬ (a = cfg.sso_client_id) := fun e => haud (by rw [hc, e])
      exact ⟨JwtError.invalidAudience,
        by simp [checkAud, insecure_validation, Validation.standard, hc, List.contains_cons, hne]⟩
  unfold validateClaims
  cases hexp : claimInt c expKey with
  | none => exact ⟨JwtError.missingRequiredClaim, rfl⟩
  | some ev =>
    exact option_orElse_some _ _ (option_orElse_some _ _ (option_orElse_some _ _ hca))

/-- Claim C5: under the insecure policy (no signing key configured), the
audience claim is still validated for identity tokens: a token whose
audience claim is not the configured client id fails to decode, and the
outcome does not depend on the token's signature, which is never checked
(signature validation disabled). -/
theorem insecure_policy_still_checks_audience (cfg : Config) (now : Int) (t : JwtToken)
    (s : Option Nat)
    (hkey : cfg.sso_rsa_key = none)
    (haud : claimStr t.claims audKey ≠ some cfg.sso_client_id) :
    Decoding.id_token (prepare_decoding cfg) now (some t) =
        Except.error SsoErr.couldNotDecodeIdToken
      ∧ Decoding.id_token (prepare_decoding cfg) now (some { claims := t.claims, sig := s }) =
          Decoding.id_token (prepare_decoding cfg) now (some t) := by
  have hv : prepare_decoding cfg = Decoding.new emptySecretKey (insecure_validation cfg) := by
    simp [prepare_decoding, hkey]
  obtain ⟨e, hvc⟩ := validateClaims_aud_mismatch cfg now t.claims haud
  simp only [insecure_validation, Validation.standard] at hvc
  constructor
  · rw [hv]
    cases dd : deserializeIdToken t.claims <;>
      simp [Decoding.id_token, Decoding.new, jwtDecode, insecure_validation,
        Validation.standard, dd, hvc]
  · rw [hv]
    cases dd : deserializeIdToken t.claims <;>
      simp [Decoding.id_token, Decoding.new, jwtDecode, insecure_validation,
        Validation.standard, dd, hvc]

/-- Identity token with a wrong audience claim (`other` instead of `cid`). -/
def badAudTok : JwtToken :=
  { claims := Json.obj [(expKey, Json.num 1000), (nonceKey, Json.str "n1".toList),
      (audKey, Json.str "other".toList)],
    sig := some 5 }

/-- Witness for C5 at the sample configuration and a wrong-audience token. -/
theorem insecure_policy_still_checks_audience_witness :
    Decoding.id_token (prepare_decoding sampleCfg) 0 (some badAudTok) =
        Except.error SsoErr.couldNotDecodeIdToken
      ∧ Decoding.id_token (prepare_decoding sampleCfg) 0
            (some { claims := badAudTok.claims, sig := none }) =
          Decoding.id_token (prepare_decoding sampleCfg) 0 (some badAudTok) :=
  insecure_policy_still_checks_audience sampleCfg 0 badAudTok none rfl (by decide)

/-- Decidable equality of `Except` results, for evaluating witnesses. -/
instance {ε α : Type} [DecidableEq ε] [DecidableEq α] : DecidableEq (Except ε α) := fun a b =>
  match a, b with
  | Except.ok x, Except.ok y =>
    if h : x = y then Decidable.isTrue (by rw [h]) else Decidable.isFalse (by simp [h])
  | Except.error x, Except.error y =>
    if h : x = y then Decidable.isTrue (by rw [h]) else Decidable.isFalse (by simp [h])
  | Except.ok _, Except.error _ => Decidable.isFalse (by simp)
  | Except.error _, Except.ok _ => Decidable.isFalse (by simp)

/-- Running the segment parser over one unary-encoded number adds it to the
open segment. -/
theorem segsAux_natToUnary (n : Nat) (rest : List Char) (pending : Nat) (cur : List Nat)
    (segs : List (List Nat)) :
    segsAux (natToUnary n ++ rest) pending cur segs =
      segsAux rest 0 ((pending + n) :: cur) segs := by
  induction n generalizing pending with
  | zero => simp [natToUnary, segsAux]
  | succ n ih =>
    have h : pending + 1 + n = pending + (n + 1) := by omega
    simp only [natToUnary, List.cons_append]
    rw [show segsAux ('1' :: (natToUnary n ++ rest)) pending cur segs =
        segsAux (natToUnary n ++ rest) (pending + 1) cur segs from by simp [segsAux]]
    rw [ih, h]

/-- Running the segment parser over the unary encoding of a whole string
accumulates its character codes in reverse. -/
theorem segsAux_encodeChars (s : List Char) (rest : List Char) (cur : List Nat)
    (segs : List (List Nat)) :
    segsAux ((s.map (fun c => natToUnary c.toNat)).flatten ++ rest) 0 cur segs =
      segsAux rest 0 (s.reverse.map Char.toNat ++ cur) segs := by
  induction s generalizing cur with
  | nil => simp
  | cons c cs ih =>
    simp only [List.map_cons, List.flatten_cons, List.append_assoc]
    rw [segsAux_natToUnary, ih]
    congr 1
    simp

/-- Running the segment parser over one encoded segment closes it. -/
theorem segsAux_encodeSeg (s : List Char) (rest : List Char) (segs : List (List Nat)) :
    segsAux (encodeSeg s ++ rest) 0 [] segs =
      segsAux rest 0 [] ((s.map Char.toNat) :: segs) := by
  unfold encodeSeg
  rw [List.append_assoc, segsAux_encodeChars]
  simp [segsAux, List.map_reverse]

/-- Unary encodings contain only the digits `0` and `1`. -/
theorem natToUnary_no_newline (n : Nat) : '\n' ∉ natToUnary n := by
  induction n with
  | zero => simp [natToUnary]
  | succ n ih => simp [natToUnary, ih]

/-- Encoded segments contain no newline (only `0`, `1`, `2`). -/
theorem encodeSeg_no_newline (s : List Char) : '\n' ∉ encodeSeg s := by
  unfold encodeSeg
  intro h
  rcases List.mem_append.mp h with h1 | h2
  · obtain ⟨seg, hseg, hmem⟩ := List.mem_flatten.mp h1
    obtain ⟨c, _, rfl⟩ := List.mem_map.mp hseg
    exact natToUnary_no_newline c.toNat hmem
  · simp at h2

/-- Serialized error claims contain no newline. -/
theorem generate_no_newline (e : List Char) (d : Option (List Char)) :
    '\n' ∉ generate_sso_error_claims e d := by
  unfold generate_sso_error_claims
  intro h
  rcases List.mem_append.mp h with h1 | h2
  · exact encodeSeg_no_newline e h1
  · cases d with
    | none => simp at h2
    | some dsc => exact encodeSeg_no_newline dsc h2

/-- Decoding a freshly serialized error pair restores it exactly. -/
theorem decode_generate (e : List Char) (d : Option (List Char)) :
    decode_sso_error (generate_sso_error_claims e d) =
      Except.ok { error := e, error_description := d } := by
  have hback : ∀ l : List Char, (l.map Char.toNat).map Char.ofNat = l := by
    intro l
    rw [List.map_map]
    have hco : Char.ofNat ∘ Char.toNat = id := by
      funext c
      simp [Function.comp, Char.ofNat_toNat]
    rw [hco, List.map_id]
  cases d with
  | none =>
    have hg : generate_sso_error_claims e none = encodeSeg e ++ [] := rfl
    rw [hg]
    unfold decode_sso_error
    rw [segsAux_encodeSeg]
    simp [segsAux, hback]
  | some dsc =>
    have hg : generate_sso_error_claims e (some dsc) = encodeSeg e ++ (encodeSeg dsc ++ []) := by
      simp [generate_sso_error_claims]
    rw [hg]
    unfold decode_sso_error
    rw [segsAux_encodeSeg, segsAux_encodeSeg]
    simp [segsAux, hback]

/-- Claim C7: the error-envelope channel round-trips: decoding the encoding
of any error and optional description yields `Some(Ok(..))` reproducing the
pair exactly; a string without the `error_` prefix decodes to `None` (a
normal authorization code); a prefixed string whose payload fails to decode
yields `Some(Err(..))`, distinct from both other outcomes. -/
theorem error_envelope_roundtrip :
    (∀ (e : List Char) (d : Option (List Char)),
        unwrap_sso_erors (wrap_sso_errors e d) =
          some (Except.ok { error := e, error_description := d }))
      ∧ (∀ code : List Char, "error_".toList.isPrefixOf code = false →
          unwrap_sso_erors code = none)
      ∧ unwrap_sso_erors ("error_1".toList) =
          some (Except.error "Invalid SSO error token".toList) := by
  refine ⟨?_, ?_, ?_⟩
  · intro e d
    unfold unwrap_sso_erors wrap_sso_errors ssoErrorsRegexCapture
    have hdrop : ("error_".toList ++ generate_sso_error_claims e d).drop 6 =
        generate_sso_error_claims e d := rfl
    have hpre : "error_".toList.isPrefixOf
        ("error_".toList ++ generate_sso_error_claims e d) = true := by
      simp [List.isPrefixOf_iff_prefix]
    have hnl : (("error_".toList ++ generate_sso_error_claims e d).drop 6).contains '\n'
        = false := by
      rw [hdrop]
      cases hcc : (generate_sso_error_claims e d).contains '\n' with
      | false => rfl
      | true => exact absurd (List.elem_iff.mp hcc) (generate_no_newline e d)
    rw [if_pos ⟨hpre, fun hcon => generate_no_newline e d
      (by rw [hdrop] at hcon; exact List.elem_iff.mp hcon)⟩]
    simp [hdrop, decode_generate]
  · intro code hp
    unfold unwrap_sso_erors ssoErrorsRegexCapture
    rw [if_neg]
    · rfl
    · intro hcon
      have h1 := hcon.1
      rw [hp] at h1
      exact absurd h1 (by decide)
  · decide

/-- Witness for C7: a concrete round trip, and a plain code decoding to
none. -/
theorem error_envelope_roundtrip_witness :
    unwrap_sso_erors (wrap_sso_errors "access_denied".toList (some "expired".toList)) =
        some (Except.ok { error := "access_denied".toList,
                          error_description := some "expired".toList })
      ∧ unwrap_sso_erors "plaincode".toList = none :=
  ⟨error_envelope_roundtrip.1 "access_denied".toList (some "expired".toList),
    error_envelope_roundtrip.2.1 "plaincode".toList (by decide)⟩

/-- Inserting `admin` always puts it first. -/
theorem insertSorted_admin_head (l : List UserRole) :
    (insertSorted UserRole.admin l).head? = some UserRole.admin := by
  cases l <;> simp [insertSorted, UserRole.le]

/-- A role list containing `admin` sorts with `admin` first. -/
theorem sortRoles_head_admin (l : List UserRole) (h : UserRole.admin ∈ l) :
    (sortRoles l).head? = some UserRole.admin := by
  induction l with
  | nil => cases h
  | cons x xs ih =>
    cases x with
    | admin => exact insertSorted_admin_head (sortRoles xs)
    | user =>
      have hx : UserRole.admin ∈ xs := by
        rcases List.mem_cons.mp h with h1 | h2
        · cases h1
        · exact h2
      have hh := ih hx
      cases hs : sortRoles xs with
      | nil => rw [hs] at hh; cases hh
      | cons a t =>
        rw [hs] at hh
        simp only [List.head?_cons, Option.some.injEq] at hh
        subst hh
        simp [sortRoles, hs, insertSorted, UserRole.le]

/-- A parsed role list keeps `admin` whenever the JSON array contains the
string `admin`. -/
theorem parseAll_mem_admin : ∀ (l : List Json) (rs : List UserRole),
    parseAll parseRole l = some rs → Json.str "admin".toList ∈ l → UserRole.admin ∈ rs := by
  intro l
  induction l with
  | nil => intro rs _ hm; cases hm
  | cons j js ih =>
    intro rs hp hm
    rcases List.mem_cons.mp hm with h1 | h2
    · subst h1
      have hpr : parseRole (Json.str "admin".toList) = some UserRole.admin := by
        simp [parseRole]
      simp only [parseAll, hpr] at hp
      cases pa : parseAll parseRole js with
      | none => rw [pa] at hp; cases hp
      | some rest =>
        rw [pa] at hp
        simp only [Option.some.injEq] at hp
        subst hp
        exact List.mem_cons_self _ _
    · simp only [parseAll] at hp
      cases pj : parseRole j with
      | none => rw [pj] at hp; cases hp
      | some r =>
        rw [pj] at hp
        cases pa : parseAll parseRole js with
        | none => rw [pa] at hp; cases hp
        | some rest =>
          rw [pa] at hp
          simp only [Option.some.injEq] at hp
          subst hp
          exact List.mem_cons_of_mem _ (ih rest pa h2)

/-- Claim C8: role extraction from access-token claims — when the
configured JSON-pointer path resolves to a role list containing both
`user` and `admin`, the extracted role is `Admin` (the most privileged
wins); when it resolves to an empty list, to a value that fails to parse as
a role list, or when the path lookup fails, the extracted role is `none`.
`Decoding.roles` is total, so no exception escapes to the caller. -/
theorem roles_extraction (cfg : Config) (email : List Char) (token : Json) :
    (∀ (l : List Json) (rs : List UserRole),
        jsonPointer token cfg.sso_roles_token_path = some (Json.arr l) →
        Json.str "user".toList ∈ l →
        Json.str "admin".toList ∈ l →
        parseAll parseRole l = some rs →
        Decoding.roles cfg email token = some UserRole.admin)
      ∧ (jsonPointer token cfg.sso_roles_token_path = some (Json.arr []) →
          Decoding.roles cfg email token = none)
      ∧ (∀ j, jsonPointer token cfg.sso_roles_token_path = some j →
          parseRoleList j = none → Decoding.roles cfg email token = none)
      ∧ (jsonPointer token cfg.sso_roles_token_path = none →
          Decoding.roles cfg email token = none) := by
  refine ⟨?_, ?_, ?_, ?_⟩
  · intro l rs hp _ ha hr
    have hadm : UserRole.admin ∈ rs := parseAll_mem_admin l rs hr ha
    simp [Decoding.roles, hp, parseRoleList, hr, sortRoles_head_admin rs hadm]
  · intro hp
    simp [Decoding.roles, hp, parseRoleList, parseAll, sortRoles]
  · intro j hp hr
    simp [Decoding.roles, hp, hr]
  · intro hp
    simp [Decoding.roles, hp]

/-- Access-token claims with a role list `[user, admin]` at the sample
role path. -/
def rolesTok : Json :=
  Json.obj [("resource_access".toList,
    Json.obj [("roles".toList, Json.arr [Json.str "user".toList, Json.str "admin".toList])])]

/-- Witness for C8: the `[user, admin]` list yields `Admin`, the empty list
and a failed lookup yield `none`. -/
theorem roles_extraction_witness :
    Decoding.roles cfgRolesOrg "user@example.com".toList rolesTok = some UserRole.admin
      ∧ Decoding.roles cfgRolesOrg "user@example.com".toList sampleAccessTok.claims = none :=
  ⟨(roles_extraction cfgRolesOrg "user@example.com".toList rolesTok).1
      [Json.str "user".toList, Json.str "admin".toList] [UserRole.user, UserRole.admin]
      rfl (by simp) (by simp) rfl,
    (roles_extraction cfgRolesOrg "user@example.com".toList sampleAccessTok.claims).2.2.2 rfl⟩

/-- The up-front membership map of `sync_groups` agrees with a direct
membership query: the user's filtered membership rows contain an
organization uuid exactly when some membership row of that user names it. -/
theorem userOrgs_contains (ms : List UserOrganization) (u x : List Char) :
    ((ms.filter (fun m => decide (m.user_uuid = u))).map (fun uo => uo.org_uuid)).contains x
      = ms.any (fun m => decide (m.user_uuid = u ∧ m.org_uuid = x)) := by
  rw [Bool.eq_iff_iff]
  constructor
  · intro hc
    obtain ⟨uo, huo, hx⟩ := List.mem_map.mp (List.elem_iff.mp hc)
    have hf := List.mem_filter.mp huo
    rw [List.any_eq_true]
    exact ⟨uo, hf.1, decide_eq_true ⟨of_decide_eq_true hf.2, hx⟩⟩
  · intro ha
    obtain ⟨m', hm', hd⟩ := List.any_eq_true.mp ha
    have hp : m'.user_uuid = u ∧ m'.org_uuid = x := of_decide_eq_true hd
    exact List.elem_iff.mpr
      (List.mem_map.mpr ⟨m', List.mem_filter.mpr ⟨hm', decide_eq_true hp.1⟩, hp.2⟩)

/-- Claim C9: `sync_groups` is a no-op when group-driven invitations are
disabled; when enabled, the issued invitations are exactly one per group
name that matches a local organization by exact name in which the user has
no membership in any state — each with default member privileges, no
collection grants, auto-acceptance, and the organization's billing contact
as notifier — while names matching no organization and organizations the
user is already in (any state) are skipped. -/
theorem sync_groups_spec (cfg : Config) (db : OrgDb) (user_uuid : List Char)
    (groups : List (List Char)) :
    (cfg.sso_organizations_invite = false → sync_groups cfg db user_uuid groups = [])
      ∧ (cfg.sso_organizations_invite = true →
          sync_groups cfg db user_uuid groups =
            groups.filterMap (specGroupInvite db user_uuid)) := by
  constructor
  · intro h
    simp [sync_groups, h]
  · intro h
    simp only [sync_groups, h, if_true]
    refine List.filterMap_congr ?_
    intro g _
    unfold specGroupInvite
    cases hf : find_by_name db g with
    | none => rfl
    | some org =>
      dsimp only [find_any_state_by_user]
      rw [userOrgs_contains db.memberships user_uuid org.uuid]

/-- Sample organization named `Engineering`. -/
def engOrg : Organization :=
  { uuid := "org-eng".toList, name := "Engineering".toList,
    billing_email := "billing@example.com".toList }

/-- Sample database: the `Engineering` organization, with `user-1` an
accepted member (status 2) and `user-2` absent. -/
def engDb : OrgDb :=
  { organizations := [engOrg],
    memberships := [{ user_uuid := "user-1".toList, org_uuid := "org-eng".toList,
                      status := 2 }] }

/-- Configuration with organization invitations enabled. -/
def cfgOrgInvite : Config :=
  { sampleCfg with sso_organizations_invite := true }

/-- Witness for C9: already-member user gets no invitation; absent user
gets exactly the one default invitation notified to the billing contact. -/
theorem sync_groups_spec_witness :
    sync_groups cfgOrgInvite engDb "user-1".toList ["Engineering".toList] = []
      ∧ sync_groups cfgOrgInvite engDb "user-2".toList ["Engineering".toList] =
          [{ user_uuid := "user-2".toList, org_uuid := "org-eng".toList,
             user_org_type := UserOrgType.user, groups := [], auto_accept := true,
             collections := [], notify_email := "billing@example.com".toList }] :=
  ⟨((sync_groups_spec cfgOrgInvite engDb "user-1".toList ["Engineering".toList]).2 rfl).trans
      rfl,
    ((sync_groups_spec cfgOrgInvite engDb "user-2".toList ["Engineering".toList]).2 rfl).trans
      rfl⟩

end VwSso
